import Mathlib

/-!
Verification development for the receipt-tracker extraction pipeline
(src/app/api/transactions/route.ts).  The JavaScript/zod code is shallowly
embedded: JSON values become an inductive type, JS numbers become rationals
(the claims only exercise exactly-representable decimals and integrality,
sign and range predicates, which agree between rationals and doubles on
such inputs), zod schema chains become explicit Lean functions returning
Except, and the stateful route handlers become functions over an explicit
store plus parameters standing for the outcomes of external calls.
-/

namespace ReceiptTracker

/-- Decidable equality for Except results, used to evaluate parses on
concrete inputs. -/
instance {ε α : Type} [DecidableEq ε] [DecidableEq α] : DecidableEq (Except ε α) := fun x y =>
  match x, y with
  | Except.ok a, Except.ok b =>
      if h : a = b then isTrue (by rw [h])
      else isFalse (by intro hc; cases hc; exact h rfl)
  | Except.error e, Except.error f =>
      if h : e = f then isTrue (by rw [h])
      else isFalse (by intro hc; cases hc; exact h rfl)
  | Except.ok _, Except.error _ => isFalse (by intro hc; cases hc)
  | Except.error _, Except.ok _ => isFalse (by intro hc; cases hc)

/-- JSON values as produced by a JS JSON.parse call.  JSON cannot contain
NaN or infinities, so numeric leaves carry a rational. -/
inductive Json where
  | null
  | bool (b : Bool)
  | num (q : ℚ)
  | str (s : String)
  | arr (elems : List Json)
  | obj (fields : List (String × Json))

/-- Result of the JS Number(string) conversion, which unlike JSON can be
NaN or an infinity. -/
inductive JsNum where
  | finite (q : ℚ)
  | nan
  | inf (pos : Bool)
deriving DecidableEq

/-- The three states a zod-parsed field can be in: key absent (undefined),
explicit null, or a typed value.  null and undef are the absent markers. -/
inductive Tri (α : Type) where
  | undef
  | null
  | val (a : α)
deriving DecidableEq

/-- Whitespace recognised by the JS String.prototype.trim and by the
string-to-number conversion (common code points; rare Unicode space
characters are not modelled, no claim exercises them). -/
def jsWhitespaceChar (c : Char) : Bool :=
  c == ' ' || c == '\t' || c == '\n' || c == '\r' || c == '\x0b' ||
    c == '\x0c' || c == '\xa0'

/-- JS String.prototype.trim. -/
def jsTrim (s : String) : String :=
  ⟨((s.data.dropWhile jsWhitespaceChar).reverse.dropWhile jsWhitespaceChar).reverse⟩

/-- JS String.prototype.toUpperCase restricted to ASCII letters; the
claims only exercise ASCII currency codes. -/
def jsToUpper (s : String) : String :=
  ⟨s.data.map Char.toUpper⟩

/-- The JS expression trimmed.replace regex-all-quotes by the empty string:
removes every double-quote character. -/
def removeQuotes (s : String) : String :=
  ⟨s.data.filter (fun c => !(c == '"'))⟩

/-- The literal regex of the source, four digits dash two digits dash two
digits, anchored at both ends (JS backslash-d is exactly 0-9 here). -/
def isDateYMD (t : String) : Bool :=
  match t.data with
  | [y1, y2, y3, y4, d1, m1, m2, d2, a1, a2] =>
      y1.isDigit && y2.isDigit && y3.isDigit && y4.isDigit && d1 == '-' &&
        m1.isDigit && m2.isDigit && d2 == '-' && a1.isDigit && a2.isDigit
  | _ => false

/-- Numeric value of a decimal digit character. -/
def digitVal (c : Char) : ℕ :=
  c.toNat - '0'.toNat

/-- Value of a digit string read in base 10. -/
def digitsToNat (cs : List Char) : ℕ :=
  cs.foldl (fun acc c => acc * 10 + digitVal c) 0

/-- Exponent suffix of a JS decimal literal: optional sign then at least
one digit. -/
def readExponent (cs : List Char) : Option ℤ :=
  match cs with
  | [] => none
  | '+' :: rest =>
      if rest ≠ [] ∧ rest.all Char.isDigit then some (digitsToNat rest) else none
  | '-' :: rest =>
      if rest ≠ [] ∧ rest.all Char.isDigit then some (-(digitsToNat rest : ℤ)) else none
  | _ =>
      if cs.all Char.isDigit then some (digitsToNat cs) else none

/-- The rational m times ten to the (e minus fl), built with mkRat so the
value computes by plain natural arithmetic. -/
def decValue (m : ℕ) (fl : ℕ) (e : ℤ) : ℚ :=
  if 0 ≤ e then mkRat (Int.ofNat (m * 10 ^ e.toNat)) (10 ^ fl)
  else mkRat (Int.ofNat m) (10 ^ fl * 10 ^ (-e).toNat)

/-- Unsigned JS decimal literal: integer part, optional fraction, optional
exponent; at least one digit overall. -/
def readUnsignedDec (cs : List Char) : Option ℚ :=
  let mant := cs.takeWhile (fun c => !(c == 'e' || c == 'E'))
  let expPart := cs.dropWhile (fun c => !(c == 'e' || c == 'E'))
  let expVal : Option ℤ :=
    match expPart with
    | [] => some 0
    | _ :: rest => readExponent rest
  match expVal with
  | none => none
  | some e =>
    let intPart := mant.takeWhile (fun c => !(c == '.'))
    let fracPart := mant.dropWhile (fun c => !(c == '.'))
    let scaled : Option (ℕ × ℕ) :=
      match fracPart with
      | [] =>
          if intPart ≠ [] ∧ intPart.all Char.isDigit then
            some (digitsToNat intPart, 0)
          else none
      | '.' :: frac =>
          if (intPart ≠ [] ∨ frac ≠ []) ∧ intPart.all Char.isDigit ∧
              frac.all Char.isDigit then
            some (digitsToNat (intPart ++ frac), frac.length)
          else none
      | _ => none
    match scaled with
    | none => none
    | some (m, fl) => some (decValue m fl e)

/-- JS Number(string): trim, empty means zero, signed decimal literal or
Infinity, anything else NaN.  Hex, octal and binary literal forms are not
modelled; no claim exercises them. -/
def jsNumber (s : String) : JsNum :=
  let t := jsTrim s
  if t = "" then JsNum.finite 0
  else
    let cs := t.data
    let signSplit : Bool × List Char :=
      match cs with
      | '+' :: r => (false, r)
      | '-' :: r => (true, r)
      | _ => (false, cs)
    let neg := signSplit.1
    let rest := signSplit.2
    if rest = "Infinity".data then JsNum.inf (!neg)
    else
      match readUnsignedDec rest with
      | some q => JsNum.finite (if neg then -q else q)
      | none => JsNum.nan

/-- Last-occurrence lookup in a JSON object field list, matching how a JS
object built by JSON.parse keeps the final duplicate of a key. -/
def jget (fields : List (String × Json)) (k : String) : Option Json :=
  match fields with
  | [] => none
  | (k', v) :: rest =>
      match jget rest k with
      | some w => some w
      | none => if k' = k then some v else none

/-! ## ReceiptSchema field parsers (zod chains after the final .partial()).

Each field sits under an outer ZodOptional added by .partial(), so a
missing key yields Tri.undef without consulting the declared default. -/

/-- The chain z.string().nullable().optional().default(null) under the
outer optional of .partial(): used for merchant, category and notes.
A present value that is neither null nor a string raises. -/
def parseNullableString (v : Option Json) : Except String (Tri String) :=
  match v with
  | none => Except.ok Tri.undef
  | some Json.null => Except.ok Tri.null
  | some (Json.str s) => Except.ok (Tri.val s)
  | some _ => Except.error "invalid_type: expected string"

/-- The txn_date preprocess callback: null for anything that is not a
string passing the glitch filters and the date regex, the trimmed string
otherwise. -/
def txnDatePre (j : Json) : Option String :=
  match j with
  | Json.str s =>
      let trimmed := jsTrim s
      if trimmed = "" ∨ trimmed = "//" then none
      else if removeQuotes trimmed = "" then none
      else if isDateYMD trimmed then some trimmed else none
  | _ => none

/-- txn_date field: preprocess into z.string().nullable(); never raises. -/
def parseTxnDate (v : Option Json) : Except String (Tri String) :=
  match v with
  | none => Except.ok Tri.undef
  | some j =>
      match txnDatePre j with
      | none => Except.ok Tri.null
      | some t => Except.ok (Tri.val t)

/-- The shared preprocess of total_cents and confidence: numbers pass
through, strings go through Number with a finiteness gate, everything
else becomes null. -/
def numericPre (j : Json) : Option ℚ :=
  match j with
  | Json.num q => some q
  | Json.str s =>
      match jsNumber s with
      | JsNum.finite q => some q
      | _ => none
  | _ => none

/-- total_cents field: preprocess into z.number().int().nonnegative()
.nullable(); a present non-integer or negative number raises. -/
def parseTotalCents (v : Option Json) : Except String (Tri ℚ) :=
  match v with
  | none => Except.ok Tri.undef
  | some j =>
      match numericPre j with
      | none => Except.ok Tri.null
      | some q =>
          if q.den = 1 ∧ 0 ≤ q then Except.ok (Tri.val q)
          else Except.error "total_cents failed int or nonnegative check"

/-- confidence field: preprocess into z.number().min(0).max(1).nullable();
a present out-of-range number raises. -/
def parseConfidence (v : Option Json) : Except String (Tri ℚ) :=
  match v with
  | none => Except.ok Tri.undef
  | some j =>
      match numericPre j with
      | none => Except.ok Tri.null
      | some q =>
          if 0 ≤ q ∧ q ≤ 1 then Except.ok (Tri.val q)
          else Except.error "confidence failed min or max check"

/-- The currency preprocess callback: CAD for null and non-strings and
trim-empty strings, upper-cased trimmed string otherwise. -/
def currencyPre (j : Json) : String :=
  match j with
  | Json.str s =>
      let trimmed := jsTrim s
      if trimmed = "" then "CAD" else jsToUpper trimmed
  | _ => "CAD"

/-- currency field: preprocess into z.string(); never raises, and never
null when the key is present. -/
def parseCurrency (v : Option Json) : Except String (Tri String) :=
  match v with
  | none => Except.ok Tri.undef
  | some j => Except.ok (Tri.val (currencyPre j))

/-- The normalized record produced by ReceiptSchema.parse. -/
structure ExtractedReceipt where
  merchant : Tri String
  txn_date : Tri String
  total_cents : Tri ℚ
  currency : Tri String
  category : Tri String
  confidence : Tri ℚ
  notes : Tri String
deriving DecidableEq

/-- ReceiptSchema.parse: a strip-unknown-keys object schema over the seven
fields; non-object input raises, and any raising field raises the whole
parse (zod collects issues but still throws). -/
def receiptParse (j : Json) : Except String ExtractedReceipt :=
  match j with
  | Json.obj fs => do
      let m ← parseNullableString (jget fs "merchant")
      let d ← parseTxnDate (jget fs "txn_date")
      let tc ← parseTotalCents (jget fs "total_cents")
      let cur ← parseCurrency (jget fs "currency")
      let cat ← parseNullableString (jget fs "category")
      let conf ← parseConfidence (jget fs "confidence")
      let nts ← parseNullableString (jget fs "notes")
      Except.ok ⟨m, d, tc, cur, cat, conf, nts⟩
  | _ => Except.error "invalid_type: expected object"

/-! ## Inbound request validation (BodySchema, SourceTypeInputSchema) -/

/-- SourceTypeInputSchema: a four-value z.enum followed by the transform
collapsing everything except screenshot to receipt.  Values outside the
enum, and non-strings, raise. -/
def sourceTypeParse (j : Json) : Except String String :=
  match j with
  | Json.str s =>
      if s = "receipt" ∨ s = "screenshot" ∨ s = "camera" ∨ s = "upload" then
        Except.ok (if s = "screenshot" then "screenshot" else "receipt")
      else Except.error "Invalid enum value"
  | _ => Except.error "Invalid enum value"

/-- The validated POST body. -/
structure PostBody where
  imagePath : String
  sourceType : String
deriving DecidableEq

/-- BodySchema.parse: imagePath a string of length at least one, plus the
source type field. -/
def bodyParse (j : Json) : Except String PostBody :=
  match j with
  | Json.obj fs =>
      match jget fs "imagePath" with
      | some (Json.str p) =>
          if 1 ≤ p.length then
            match jget fs "sourceType" with
            | some sv => (sourceTypeParse sv).map (PostBody.mk p)
            | none => Except.error "Invalid enum value"
          else Except.error "String must contain at least 1 character"
      | _ => Except.error "invalid_type: expected string"
  | _ => Except.error "invalid_type: expected object"

/-! ## VisionExtractor response-envelope extraction (callOpenAiVision) -/

/-- JS member access through an optional-chain: an object field lookup,
undefined on every non-object. -/
def jfield (j : Json) (k : String) : Option Json :=
  match j with
  | Json.obj fs => jget fs k
  | _ => none

/-- A field value that is a string, mirroring a JS typeof test. -/
def asStr (v : Option Json) : Option String :=
  match v with
  | some (Json.str s) => some s
  | _ => none

/-- The JS strict equality of a field against a string literal tag. -/
def hasTag (v : Option Json) (tag : String) : Bool :=
  match v with
  | some (Json.str s) => s == tag
  | _ => false

/-- The JS loose inequality json != null: the field is present and
neither null nor undefined. -/
def presentNonNull (v : Option Json) : Bool :=
  match v with
  | some Json.null => false
  | some _ => true
  | none => false

/-- A JSON string escape covering the characters the claims exercise. -/
def jsonEscape (s : String) : String :=
  s.data.foldl
    (fun acc c =>
      acc ++
        (if c = '"' then "\\\""
         else if c = '\\' then "\\\\"
         else if c = '\n' then "\\n"
         else if c = '\r' then "\\r"
         else if c = '\t' then "\\t"
         else String.singleton c))
    ""

/-- Rendering of a rational number: exact for integers, which is all the
serializer is applied to in this development. -/
def qRepr (q : ℚ) : String :=
  if q.den = 1 then toString q.num else toString q.num ++ "/" ++ toString q.den

/-- JSON.stringify with an explicit structural fuel; the fuel passed by
jsonStringify always exceeds the nesting depth, so the truncation arm is
unreachable and exists only to make the recursion structural. -/
def stringifyFuel : ℕ → Json → String
  | 0, _ => ""
  | _ + 1, Json.null => "null"
  | _ + 1, Json.bool b => cond b "true" "false"
  | _ + 1, Json.num q => qRepr q
  | _ + 1, Json.str s => "\"" ++ jsonEscape s ++ "\""
  | n + 1, Json.arr xs =>
      "[" ++ String.intercalate "," (xs.map (stringifyFuel n)) ++ "]"
  | n + 1, Json.obj fs =>
      "\x7b" ++
        String.intercalate ","
          (fs.map (fun kv => "\"" ++ jsonEscape kv.1 ++ "\":" ++ stringifyFuel n kv.2)) ++
        "\x7d"

mutual

/-- Nesting depth of a JSON value, used as fuel for the serializer. -/
def jsonDepth : Json → ℕ
  | Json.null => 1
  | Json.bool _ => 1
  | Json.num _ => 1
  | Json.str _ => 1
  | Json.arr xs => 1 + jsonListDepth xs
  | Json.obj fs => 1 + jsonFieldsDepth fs

/-- Largest depth among the elements of a JSON array. -/
def jsonListDepth : List Json → ℕ
  | [] => 0
  | x :: rest => max (jsonDepth x) (jsonListDepth rest)

/-- Largest depth among the values of a JSON object. -/
def jsonFieldsDepth : List (String × Json) → ℕ
  | [] => 0
  | kv :: rest => max (jsonDepth kv.2) (jsonFieldsDepth rest)

end

/-- JSON.stringify of a parsed JSON value. -/
def jsonStringify (j : Json) : String :=
  stringifyFuel (jsonDepth j) j

/-- The three sequential return-on-match tests of the inner loop of
callOpenAiVision, in source order: an output_text typed part with a
string text field (no emptiness test), then an output_json typed part
with non-null json, then any part with a nonempty-after-trim string text. -/
def partExtract (part : Json) : Option String :=
  if hasTag (jfield part "type") "output_text" ∧ (asStr (jfield part "text")).isSome then
    asStr (jfield part "text")
  else if hasTag (jfield part "type") "output_json" ∧ presentNonNull (jfield part "json") then
    (jfield part "json").map jsonStringify
  else
    match asStr (jfield part "text") with
    | some t => if jsTrim t = "" then none else some t
    | none => none

/-- The content parts of one output item: item.content when it is an
array, else the empty list. -/
def itemParts (item : Json) : List Json :=
  match jfield item "content" with
  | some (Json.arr ps) => ps
  | _ => []

/-- Scan of the content parts of one item, first extracted part wins. -/
def scanParts : List Json → Option String
  | [] => none
  | p :: rest =>
      match partExtract p with
      | some t => some t
      | none => scanParts rest

/-- Scan of the output item list, first item yielding a part wins. -/
def scanOutput : List Json → Option String
  | [] => none
  | it :: rest =>
      match scanParts (itemParts it) with
      | some t => some t
      | none => scanOutput rest

/-- The fallback of callOpenAiVision once the top-level text is absent or
blank: scan payload.output when it is an array, else fail. -/
def extractFallback (payload : Json) : Except String String :=
  let output :=
    match jfield payload "output" with
    | some (Json.arr xs) => xs
    | _ => []
  match scanOutput output with
  | some t => Except.ok t
  | none => Except.error "OpenAI response missing output text/json."

/-- Response-text extraction of callOpenAiVision: the top-level
output_text field when it is a string nonempty after trimming, otherwise
the fallback scan. -/
def extractText (payload : Json) : Except String String :=
  match asStr (jfield payload "output_text") with
  | some s => if jsTrim s = "" then extractFallback payload else Except.ok s
  | none => extractFallback payload

/-! ## Spec-side definitions, written from the amended claim wording, for
refinement comparisons against the source-side definitions above. -/

/-- Amended source-type rule, written from the amended claim wording:
screenshot stays screenshot, the other three accepted enum values map to
receipt, everything else is rejected. -/
def specSourceType (j : Json) : Except String String :=
  match j with
  | Json.str s =>
      if s = "screenshot" then Except.ok "screenshot"
      else if s = "receipt" ∨ s = "camera" ∨ s = "upload" then Except.ok "receipt"
      else Except.error "Invalid enum value"
  | _ => Except.error "Invalid enum value"

/-- Amended txn_date rule, written from the amended claim wording: the
trimmed input when the trimmed input matches the date pattern, the null
marker for every other present value. -/
def specTxnDate (j : Json) : Tri String :=
  match j with
  | Json.str s => if isDateYMD (jsTrim s) then Tri.val (jsTrim s) else Tri.null
  | _ => Tri.null

/-- First strategy of the amended extraction chain: a text-typed part
whose text field is a string, returned even when empty. -/
def stratTextTyped (part : Json) : Option String :=
  if hasTag (jfield part "type") "output_text" then asStr (jfield part "text")
  else none

/-- Second strategy: a JSON-typed part with non-null json, serialized. -/
def stratJsonTyped (part : Json) : Option String :=
  if hasTag (jfield part "type") "output_json" then
    match jfield part "json" with
    | some Json.null => none
    | some j => some (jsonStringify j)
    | none => none
  else none

/-- Third strategy: any part exposing a string text field nonempty after
trimming. -/
def stratAnyText (part : Json) : Option String :=
  match asStr (jfield part "text") with
  | some t => if jsTrim t = "" then none else some t
  | none => none

/-- Runs an ordered list of extraction strategies on a part, first
success wins. -/
def firstStrategy (strategies : List (Json → Option String)) (part : Json) : Option String :=
  match strategies with
  | [] => none
  | f :: rest =>
      match f part with
      | some t => some t
      | none => firstStrategy rest part

/-- The amended per-part extraction: the three strategies in order. -/
def specPartExtract (part : Json) : Option String :=
  firstStrategy [stratTextTyped, stratJsonTyped, stratAnyText] part

/-- Scan of the content parts under the amended chain. -/
def specScanParts : List Json → Option String
  | [] => none
  | p :: rest =>
      match specPartExtract p with
      | some t => some t
      | none => specScanParts rest

/-- Scan of the output items under the amended chain. -/
def specScanOutput : List Json → Option String
  | [] => none
  | it :: rest =>
      match specScanParts (itemParts it) with
      | some t => some t
      | none => specScanOutput rest

/-- The amended extraction chain over the whole payload: top-level text
when a string nonempty after trimming, else the item scan, else the
empty-model-response error. -/
def specExtractText (payload : Json) : Except String String :=
  match asStr (jfield payload "output_text") with
  | some s =>
      if jsTrim s ≠ "" then Except.ok s
      else
        match specScanOutput
            (match jfield payload "output" with
             | some (Json.arr xs) => xs
             | _ => []) with
        | some t => Except.ok t
        | none => Except.error "OpenAI response missing output text/json."
  | none =>
      match specScanOutput
          (match jfield payload "output" with
           | some (Json.arr xs) => xs
           | _ => []) with
      | some t => Except.ok t
      | none => Except.error "OpenAI response missing output text/json."

/-- The per-part extraction exactly as the original claim words it: a
text-typed part only when its text is nonempty, else a JSON-typed part,
else any part with nonempty text.  Used to exhibit the divergence from
the source behaviour. -/
def claimPartExtract (part : Json) : Option String :=
  if hasTag (jfield part "type") "output_text" ∧
      (match asStr (jfield part "text") with
       | some t => !(t == "")
       | none => false) = true then
    asStr (jfield part "text")
  else if hasTag (jfield part "type") "output_json" ∧ presentNonNull (jfield part "json") then
    (jfield part "json").map jsonStringify
  else
    match asStr (jfield part "text") with
    | some t => if jsTrim t = "" then none else some t
    | none => none

/-- Part scan under the claim-as-written chain. -/
def claimScanParts : List Json → Option String
  | [] => none
  | p :: rest =>
      match claimPartExtract p with
      | some t => some t
      | none => claimScanParts rest

/-- Item scan under the claim-as-written chain. -/
def claimScanOutput : List Json → Option String
  | [] => none
  | it :: rest =>
      match claimScanParts (itemParts it) with
      | some t => some t
      | none => claimScanOutput rest

/-- The whole extraction as the original claim words it. -/
def claimExtractText (payload : Json) : Except String String :=
  match asStr (jfield payload "output_text") with
  | some s =>
      if jsTrim s ≠ "" then Except.ok s
      else
        match claimScanOutput
            (match jfield payload "output" with
             | some (Json.arr xs) => xs
             | _ => []) with
        | some t => Except.ok t
        | none => Except.error "OpenAI response missing output text/json."
  | none =>
      match claimScanOutput
          (match jfield payload "output" with
           | some (Json.arr xs) => xs
           | _ => []) with
      | some t => Except.ok t
      | none => Except.error "OpenAI response missing output text/json."

/-! ## ExtractionPipeline (the POST handler) -/

/-- Distinguishable failure modes of callOpenAiVision. -/
inductive VisionError where
  | missingApiKey
  | badStatus (body : String)
  | aborted
  | emptyResponse
deriving DecidableEq

/-- Outcome of the single fetch to the model API, supplied as a parameter
standing for the external network call; the timeout abort of the
60-second AbortController appears as the aborted constructor. -/
inductive FetchOutcome where
  | timeoutAbort
  | httpError (body : String)
  | success (payload : Json)

/-- callOpenAiVision: fail fast on a missing key, report the abort or the
non-2xx body, otherwise extract text from the response payload. -/
def callOpenAiVision (apiKey : Option String) (fetch : FetchOutcome) :
    Except VisionError String :=
  match apiKey with
  | none => Except.error VisionError.missingApiKey
  | some _ =>
      match fetch with
      | FetchOutcome.timeoutAbort => Except.error VisionError.aborted
      | FetchOutcome.httpError _ => Except.error (VisionError.badStatus "request failed")
      | FetchOutcome.success payload =>
          match extractText payload with
          | Except.ok t => Except.ok t
          | Except.error _ => Except.error VisionError.emptyResponse

/-- The row handed to the persistence insert by the POST handler. -/
structure InsertRow where
  user_id : String
  source_type : String
  image_path : String
  merchant : Tri String
  txn_date : Tri String
  total_cents : Tri ℚ
  currency : String
  category : Tri String
  confidence : Tri ℚ
deriving DecidableEq

/-- The JS expression parsed.currency double-question-mark CAD: the
string when the field holds one, CAD when it is null or undefined. -/
def currencyOrCad (c : Tri String) : String :=
  match c with
  | Tri.val s => s
  | _ => "CAD"

/-- The POST handler as a function of the outcomes of its external
collaborators: auth token and user lookup, request body JSON, signed-URL
creation, model fetch, and insert success.  Returns the HTTP status and
the row passed to insert when persistence is attempted (none when no
insert call is made).  jsonParse stands for the JS JSON.parse primitive
applied to the extracted model text. -/
def postPipeline (jsonParse : String → Option Json) (token : Option String)
    (authUser : Option String) (reqBody : Option Json)
    (sign : Except String String) (apiKey : Option String)
    (fetch : FetchOutcome) (insertOk : Bool) : ℕ × Option InsertRow :=
  match token with
  | none => (401, none)
  | some _ =>
      match authUser with
      | none => (401, none)
      | some uid =>
          match reqBody with
          | none => (400, none)
          | some bodyJson =>
              match bodyParse bodyJson with
              | Except.error _ => (400, none)
              | Except.ok b =>
                  match sign with
                  | Except.error _ => (500, none)
                  | Except.ok _ =>
                      match callOpenAiVision apiKey fetch with
                      | Except.error _ => (400, none)
                      | Except.ok rawText =>
                          match jsonParse rawText with
                          | none => (400, none)
                          | some parsedJson =>
                              match receiptParse parsedJson with
                              | Except.error _ => (400, none)
                              | Except.ok parsed =>
                                  let row : InsertRow :=
                                    ⟨uid, b.sourceType, b.imagePath, parsed.merchant,
                                      parsed.txn_date, parsed.total_cents,
                                      currencyOrCad parsed.currency, parsed.category,
                                      parsed.confidence⟩
                                  if insertOk then (200, some row) else (500, some row)

/-! ## The transactions table, storage bucket, and the GET, DELETE and
PATCH route handlers.  The relational store and the object store are
external collaborators; they are modelled as plain lists, with the eq
filters of each supabase query applied literally and maybeSingle turning
a multi-row result into an error. -/

/-- One row of the transactions table. -/
structure Txn where
  id : String
  user_id : String
  created_at : ℕ
  txn_date : Option String
  merchant : Option String
  total_cents : Option ℤ
  currency : Option String
  category : Option String
  source_type : String
  image_path : Option String
  confidence : Option ℚ
deriving DecidableEq

/-- The stored state: table rows plus the object paths in the receipts
bucket. -/
structure Store where
  rows : List Txn
  objects : List String
deriving DecidableEq

/-- Insertion step of a descending sort on created_at. -/
def insertDesc (t : Txn) : List Txn → List Txn
  | [] => [t]
  | h :: rest =>
      if h.created_at ≤ t.created_at then t :: h :: rest
      else h :: insertDesc t rest

/-- Descending order by created_at, modelling the order clause of the
listing query. -/
def orderByCreatedDesc : List Txn → List Txn
  | [] => []
  | t :: rest => insertDesc t (orderByCreatedDesc rest)

/-- The GET listing: select rows whose user_id equals the authenticated
user, newest first. -/
def getTransactions (db : Store) (uid : String) : List Txn :=
  orderByCreatedDesc (db.rows.filter (fun r => r.user_id == uid))

/-- The DELETE handler after authentication: read the id from the body
(a non-string or empty id is a 400), look the row up scoped to the user,
404 when absent, otherwise remove the image object and then delete the
row with the same two eq filters. -/
def deleteTransaction (db : Store) (uid : String) (body : Json) : ℕ × Store :=
  let idOpt : Option String :=
    match body with
    | Json.obj fs =>
        match jget fs "id" with
        | some (Json.str s) => some s
        | _ => none
    | _ => none
  match idOpt with
  | none => (400, db)
  | some id =>
      if id = "" then (400, db)
      else
        match db.rows.filter (fun r => r.id == id && r.user_id == uid) with
        | [] => (404, db)
        | [t] =>
            let afterStorage : Store :=
              match t.image_path with
              | some p => { db with objects := db.objects.filter (fun q => !(q == p)) }
              | none => db
            let remaining :=
              afterStorage.rows.filter (fun r => !(r.id == id && r.user_id == uid))
            (200, { afterStorage with rows := remaining })
        | _ :: _ :: _ => (500, db)

/-- The PATCH body after PatchBodySchema.parse: the id plus, per field,
outer none for an omitted key and inner none for the null written to the
column. -/
structure PatchParsed where
  id : String
  merchant : Option (Option String)
  txn_date : Option (Option String)
  total_cents : Option (Option ℤ)
  currency : Option (Option String)
  category : Option (Option String)
deriving DecidableEq

/-- JS Math.round: floor of the argument plus one half. -/
def jsRound (q : ℚ) : ℤ :=
  ⌊q + 1 / 2⌋

/-- The merchant and category transform of PatchBodySchema: undefined
passes, null passes, a string is trimmed with empty collapsing to null,
anything else raises. -/
def patchStrField (v : Option Json) : Except String (Option (Option String)) :=
  match v with
  | none => Except.ok none
  | some Json.null => Except.ok (some none)
  | some (Json.str s) =>
      let trimmed := jsTrim s
      Except.ok (some (if trimmed = "" then none else some trimmed))
  | some _ => Except.error "invalid_type"

/-- The txn_date transform of PatchBodySchema: trimmed string kept only
when it matches the date pattern, else null. -/
def patchDateField (v : Option Json) : Except String (Option (Option String)) :=
  match v with
  | none => Except.ok none
  | some Json.null => Except.ok (some none)
  | some (Json.str s) =>
      let trimmed := jsTrim s
      if trimmed = "" then Except.ok (some none)
      else Except.ok (some (if isDateYMD trimmed then some trimmed else none))
  | some _ => Except.error "invalid_type"

/-- The total_cents transform of PatchBodySchema: numbers and numeric
strings are rounded, with non-finite and negative results collapsing to
null. -/
def patchCentsField (v : Option Json) : Except String (Option (Option ℤ)) :=
  match v with
  | none => Except.ok none
  | some Json.null => Except.ok (some none)
  | some (Json.num q) =>
      let asInt := jsRound q
      Except.ok (some (if asInt < 0 then none else some asInt))
  | some (Json.str s) =>
      match jsNumber s with
      | JsNum.finite q =>
          let asInt := jsRound q
          Except.ok (some (if asInt < 0 then none else some asInt))
      | _ => Except.ok (some none)
  | some _ => Except.error "invalid_type"

/-- The currency transform of PatchBodySchema: trimmed and upper-cased,
empty collapsing to null. -/
def patchCurrencyField (v : Option Json) : Except String (Option (Option String)) :=
  match v with
  | none => Except.ok none
  | some Json.null => Except.ok (some none)
  | some (Json.str s) =>
      let trimmed := jsTrim s
      Except.ok (some (if trimmed = "" then none else some (jsToUpper trimmed)))
  | some _ => Except.error "invalid_type"

/-- Keys accepted by the strict PATCH object schema. -/
def patchAllowedKeys : List String :=
  ["id", "merchant", "txn_date", "total_cents", "currency", "category"]

/-- PatchBodySchema.parse: strict object, id a string of length at least
one, and the five per-field transforms. -/
def patchParse (j : Json) : Except String PatchParsed :=
  match j with
  | Json.obj fs =>
      if fs.all (fun kv => patchAllowedKeys.contains kv.1) then
        match jget fs "id" with
        | some (Json.str s) =>
            if 1 ≤ s.length then do
              let m ← patchStrField (jget fs "merchant")
              let d ← patchDateField (jget fs "txn_date")
              let tc ← patchCentsField (jget fs "total_cents")
              let cur ← patchCurrencyField (jget fs "currency")
              let cat ← patchStrField (jget fs "category")
              Except.ok ⟨s, m, d, tc, cur, cat⟩
            else Except.error "String must contain at least 1 character"
        | _ => Except.error "invalid_type: expected string"
      else Except.error "Unrecognized keys in object"
  | _ => Except.error "invalid_type: expected object"

/-- Whether the parsed PATCH body defines at least one column to update. -/
def hasUpdate (p : PatchParsed) : Bool :=
  p.merchant.isSome || p.txn_date.isSome || p.total_cents.isSome ||
    p.currency.isSome || p.category.isSome

/-- Application of the defined PATCH fields to one row. -/
def applyUpdate (p : PatchParsed) (r : Txn) : Txn :=
  { r with
    merchant := p.merchant.getD r.merchant
    txn_date := p.txn_date.getD r.txn_date
    total_cents := p.total_cents.getD r.total_cents
    currency := p.currency.getD r.currency
    category := p.category.getD r.category }

/-- The PATCH handler after authentication: parse the body, reject an
empty update set, then update the rows matching both eq filters; the
maybeSingle over the updated selection yields 404 on no match and an
error on a multi-row match. -/
def patchTransaction (db : Store) (uid : String) (body : Json) : ℕ × Store :=
  match patchParse body with
  | Except.error _ => (400, db)
  | Except.ok p =>
      if hasUpdate p then
        let touched := db.rows.filter (fun r => r.id == p.id && r.user_id == uid)
        let newRows :=
          db.rows.map (fun r => if r.id == p.id && r.user_id == uid then applyUpdate p r else r)
        match touched with
        | [] => (404, db)
        | [_] => (200, { db with rows := newRows })
        | _ :: _ :: _ => (500, { db with rows := newRows })
      else (400, db)

/-! ## Concrete data used by counterexamples and witnesses -/

/-- A model response payload whose top-level text is blank and whose only
output item starts with an output_text part carrying the empty string,
followed by a part with usable text. -/
def c8Payload : Json :=
  Json.obj
    [("output_text", Json.str ""),
     ("output",
      Json.arr
        [Json.obj
          [("content",
            Json.arr
              [Json.obj [("type", Json.str "output_text"), ("text", Json.str "")],
               Json.obj [("text", Json.str " hi ")]])]])]

/-- A request body whose sourceType is outside the accepted enum. -/
def c4Body : Json :=
  Json.obj [("imagePath", Json.str "u/p.jpg"), ("sourceType", Json.str "bank-statement")]

/-- A transaction row owned by alice. -/
def txnA : Txn :=
  ⟨"t1", "alice", 10, some "2024-03-01", some "Costco", some 4599, some "CAD",
    some "Groceries", "receipt", some "alice/img1.jpg", none⟩

/-- A transaction row owned by bob. -/
def txnB : Txn :=
  ⟨"t2", "bob", 20, none, some "Cafe", some 350, some "CAD", some "Dining",
    "receipt", some "bob/img2.jpg", none⟩

/-- A two-user store used to instantiate the scoping theorem. -/
def db0 : Store :=
  ⟨[txnA, txnB], ["alice/img1.jpg", "bob/img2.jpg"]⟩

/-- A PATCH body addressing the row of bob. -/
def patchBody0 : Json :=
  Json.obj [("id", Json.str "t2"), ("merchant", Json.str "New name")]

/-- The parse of patchBody0. -/
def patchParsed0 : PatchParsed :=
  ⟨"t2", some (some "New name"), none, none, none, none⟩

/-- A valid POST body used by the pipeline witness. -/
def postBody0 : Json :=
  Json.obj [("imagePath", Json.str "alice/img1.jpg"), ("sourceType", Json.str "receipt")]

/-! ## Helper lemmas -/

/-- A string whose quote-removal is empty consists of quote characters
only, and such a string never matches the date pattern. -/
lemma isDateYMD_false_of_removeQuotes_empty (t : String)
    (h : removeQuotes t = "") : isDateYMD t = false := by
  have hnil : t.data.filter (fun c => !(c == '"')) = [] := by
    simpa [removeQuotes] using congrArg String.data h
  have hall : ∀ c ∈ t.data, c = '"' := by
    intro c hc
    by_contra hne
    have hmem : c ∈ t.data.filter (fun c => !(c == '"')) := by
      simp [List.mem_filter, hc, hne]
    rw [hnil] at hmem
    exact absurd hmem (List.not_mem_nil c)
  unfold isDateYMD
  split
  next y1 y2 y3 y4 d1 m1 m2 d2 a1 a2 heq =>
    have hd : d1 = '"' := hall d1 (by rw [heq]; simp)
    subst hd
    simp
  next => rfl

/-- The date preprocess reduces to the date-pattern test: the glitch
filters for the empty string, the double slash and quote artifacts are
subsumed by the pattern failing on those strings. -/
lemma txnDatePre_characterization (j : Json) :
    txnDatePre j =
      (match j with
       | Json.str s => if isDateYMD (jsTrim s) then some (jsTrim s) else none
       | _ => none) := by
  cases j <;> simp only [txnDatePre]
  case str s =>
    by_cases h1 : jsTrim s = "" ∨ jsTrim s = "//"
    · have hfalse : isDateYMD (jsTrim s) = false := by
        rcases h1 with h | h <;> rw [h] <;> decide
      simp [h1, hfalse]
    · by_cases h2 : removeQuotes (jsTrim s) = ""
      · have hfalse := isDateYMD_false_of_removeQuotes_empty _ h2
        simp [h1, h2, hfalse]
      · simp [h1, h2]

/-- Membership in the insertion step of the descending sort. -/
lemma mem_insertDesc {a t : Txn} {l : List Txn} (h : a ∈ insertDesc t l) :
    a = t ∨ a ∈ l := by
  induction l with
  | nil => simpa [insertDesc] using h
  | cons hd tl ih =>
      unfold insertDesc at h
      split at h
      · simp at h ⊢
        tauto
      · rcases List.mem_cons.mp h with h1 | h2
        · right; simp [h1]
        · rcases ih h2 with h3 | h4
          · left; exact h3
          · right; simp [h4]

/-- The descending sort introduces no new elements. -/
lemma mem_orderByCreatedDesc {a : Txn} {l : List Txn}
    (h : a ∈ orderByCreatedDesc l) : a ∈ l := by
  induction l with
  | nil => rw [orderByCreatedDesc] at h; exact h
  | cons hd tl ih =>
      unfold orderByCreatedDesc at h
      rcases mem_insertDesc h with h1 | h2
      · simp [h1]
      · simp [ih h2]

/-! ## Claim theorems -/

/-- C1.  The claim (and the source comment stating that missing or
invalid values become null) says the normalizer is total and never
raises.  Evaluating ReceiptSchema.parse shows it raises on a wrong-typed
merchant field and on the non-object inputs null and the empty array. -/
theorem c1_normalizer_raises_on_malformed_input :
    receiptParse (Json.obj [("merchant", Json.num 123)]) =
        Except.error "invalid_type: expected string" ∧
      receiptParse Json.null = Except.error "invalid_type: expected object" ∧
      receiptParse (Json.arr []) = Except.error "invalid_type: expected object" := by
  refine ⟨by decide, by decide, by decide⟩

/-- C2.  The claim says a negative total_cents and a fractional numeric
string such as 23.47 normalize to the absent marker without failing.
Evaluating the schema shows both raise, while an already-integer
non-negative value is indeed accepted unchanged. -/
theorem c2_total_cents_raises_instead_of_null :
    receiptParse (Json.obj [("total_cents", Json.num (-5))]) =
        Except.error "total_cents failed int or nonnegative check" ∧
      receiptParse (Json.obj [("total_cents", Json.str "23.47")]) =
        Except.error "total_cents failed int or nonnegative check" ∧
      receiptParse (Json.obj [("total_cents", Json.num 2347)]) =
        Except.ok ⟨Tri.undef, Tri.undef, Tri.val 2347, Tri.undef, Tri.undef,
          Tri.undef, Tri.undef⟩ := by
  refine ⟨by decide, by decide, by decide⟩

/-- C3.  The claim says an out-of-range confidence such as 1.5 becomes
the absent marker without the normalizer failing.  Evaluating the schema
shows the value raises, while the in-range value 0 is kept. -/
theorem c3_confidence_raises_instead_of_null :
    receiptParse (Json.obj [("confidence", Json.num (mkRat 3 2))]) =
        Except.error "confidence failed min or max check" ∧
      receiptParse (Json.obj [("confidence", Json.num 0)]) =
        Except.ok ⟨Tri.undef, Tri.undef, Tri.undef, Tri.undef, Tri.undef,
          Tri.val 0, Tri.undef⟩ := by
  refine ⟨by decide, by decide⟩

/-- C4 counterexample.  The claim says any unrecognized sourceType maps
to receipt; the schema instead rejects a value outside its four-value
enum, so the request fails validation. -/
theorem c4_unrecognized_source_rejected :
    bodyParse c4Body = Except.error "Invalid enum value" ∧
      bodyParse c4Body ≠ Except.ok ⟨"u/p.jpg", "receipt"⟩ := by
  refine ⟨by decide, by decide⟩

/-- C4 amended.  Among the four accepted enum values, everything except
screenshot maps to receipt; any other value, and any non-string, is
rejected with a validation error. -/
theorem c4_source_type_enum_behavior (j : Json) :
    sourceTypeParse j = specSourceType j := by
  cases j <;> simp only [sourceTypeParse, specSourceType]
  case str s =>
    by_cases h1 : s = "screenshot"
    · subst h1; decide
    · by_cases h2 : s = "receipt" ∨ s = "camera" ∨ s = "upload"
      · have h3 : s = "receipt" ∨ s = "screenshot" ∨ s = "camera" ∨ s = "upload" := by
          tauto
        simp [h1, h2, h3]
      · have h3 : ¬(s = "receipt" ∨ s = "screenshot" ∨ s = "camera" ∨ s = "upload") := by
          tauto
        simp [h1, h2, h3]

/-- C5 counterexample.  The claim says a merchant string empty after
trimming becomes the absent marker; the schema keeps the whitespace
string as a value. -/
theorem c5_blank_merchant_kept :
    receiptParse (Json.obj [("merchant", Json.str "   ")]) =
        Except.ok ⟨Tri.val "   ", Tri.undef, Tri.undef, Tri.undef, Tri.undef,
          Tri.undef, Tri.undef⟩ ∧
      jsTrim "   " = "" ∧ (Tri.val "   " : Tri String) ≠ Tri.null := by
  refine ⟨by decide, by decide, by decide⟩

/-- C5 amended.  The normalizer passes string merchants through
unchanged, with no trimming and no empty-string coercion; null maps to
the null marker and a missing key stays undefined.  The trimming
described by the claim lives in the PATCH correction path instead. -/
theorem c5_merchant_passthrough :
    (∀ s : String, parseNullableString (some (Json.str s)) = Except.ok (Tri.val s)) ∧
      parseNullableString (some Json.null) = Except.ok Tri.null ∧
      parseNullableString none = Except.ok Tri.undef ∧
      receiptParse (Json.obj [("merchant", Json.str " Costco ")]) =
        Except.ok ⟨Tri.val " Costco ", Tri.undef, Tri.undef, Tri.undef,
          Tri.undef, Tri.undef, Tri.undef⟩ ∧
      patchStrField (some (Json.str " Costco ")) = Except.ok (some (some "Costco")) := by
  refine ⟨fun s => rfl, rfl, rfl, by decide, by decide⟩

/-- A part whose type tag equals one string cannot also carry a
different tag. -/
lemma hasTag_false_of_ne {v : Option Json} {a b : String}
    (h : hasTag v a = true) (hne : b ≠ a) : hasTag v b = false := by
  unfold hasTag at h ⊢
  cases v with
  | none => exact absurd h (by simp)
  | some j =>
      cases j <;> simp_all
      intro hc
      exact hne hc.symm

/-- Collapsing an identity match over an optional string. -/
lemma optionMatchId (o : Option String) :
    (match o with | some t => some t | none => none) = o := by
  cases o <;> rfl

/-- The sequential return-on-match tests of the source loop coincide with
the ordered strategy list of the amended chain on every part. -/
lemma partExtract_eq_spec (p : Json) : partExtract p = specPartExtract p := by
  simp only [partExtract, specPartExtract, firstStrategy, stratTextTyped,
    stratJsonTyped, stratAnyText]
  by_cases h1 : hasTag (jfield p "type") "output_text" = true
  · have h2 : hasTag (jfield p "type") "output_json" = false :=
      hasTag_false_of_ne h1 (by decide)
    cases htx : asStr (jfield p "text") with
    | some t => simp [h1, h2, htx]
    | none => simp [h1, h2, htx]
  · have h1f : hasTag (jfield p "type") "output_text" = false := by
      simpa using h1
    by_cases h2 : hasTag (jfield p "type") "output_json" = true
    · cases hj : jfield p "json" with
      | none => simp [h1f, h2, hj, presentNonNull, optionMatchId]
      | some j => cases j <;> simp [h1f, h2, hj, presentNonNull, optionMatchId]
    · have h2f : hasTag (jfield p "type") "output_json" = false := by
        simpa using h2
      simp [h1f, h2f, optionMatchId]

/-- Part scans agree between the source loop and the strategy chain. -/
lemma scanParts_eq_spec (ps : List Json) : scanParts ps = specScanParts ps := by
  induction ps with
  | nil => rfl
  | cons p rest ih => simp only [scanParts, specScanParts, partExtract_eq_spec, ih]

/-- Item scans agree between the source loop and the strategy chain. -/
lemma scanOutput_eq_spec (its : List Json) : scanOutput its = specScanOutput its := by
  induction its with
  | nil => rfl
  | cons it rest ih => simp only [scanOutput, specScanOutput, scanParts_eq_spec, ih]

/-- C6 counterexample.  The claim says the normalized txn_date is the
input string when the trimmed input matches the pattern; for an input
with surrounding whitespace the schema returns the trimmed string, which
differs from the input. -/
theorem c6_padded_date_trimmed :
    receiptParse (Json.obj [("txn_date", Json.str " 2024-01-05")]) =
        Except.ok ⟨Tri.undef, Tri.val "2024-01-05", Tri.undef, Tri.undef,
          Tri.undef, Tri.undef, Tri.undef⟩ ∧
      (" 2024-01-05" : String) ≠ "2024-01-05" ∧
      isDateYMD (jsTrim " 2024-01-05") = true := by
  refine ⟨by decide, by decide, by decide⟩

/-- C6 amended.  The normalized txn_date is the trimmed input string
exactly when the trimmed input matches the four-two-two digit dash
pattern, and the absent marker for every other present value (the glitch
filters of the source for empty, double-slash and quote-only strings are
subsumed, since no such string matches the pattern); a missing key stays
undefined. -/
theorem c6_txn_date_pattern :
    (∀ j : Json, parseTxnDate (some j) = Except.ok (specTxnDate j)) ∧
      parseTxnDate none = Except.ok Tri.undef ∧
      receiptParse (Json.obj [("txn_date", Json.str "2024-1-5")]) =
        Except.ok ⟨Tri.undef, Tri.null, Tri.undef, Tri.undef, Tri.undef,
          Tri.undef, Tri.undef⟩ ∧
      receiptParse (Json.obj [("txn_date", Json.str "2024-01-05")]) =
        Except.ok ⟨Tri.undef, Tri.val "2024-01-05", Tri.undef, Tri.undef,
          Tri.undef, Tri.undef, Tri.undef⟩ := by
  refine ⟨?_, rfl, by decide, by decide⟩
  intro j
  rw [parseTxnDate, txnDatePre_characterization]
  cases j <;> simp only [specTxnDate]
  case str s =>
    by_cases h : isDateYMD (jsTrim s) <;> simp [h]

/-- C7 counterexample.  The claim says an absent currency field
normalizes to CAD and the result is never the absent marker; for an
empty object the schema leaves the field undefined, because the final
partial wraps the declared default in an outer optional that swallows
the missing key. -/
theorem c7_absent_currency_stays_absent :
    receiptParse (Json.obj []) =
        Except.ok ⟨Tri.undef, Tri.undef, Tri.undef, Tri.undef, Tri.undef,
          Tri.undef, Tri.undef⟩ ∧
      (Tri.undef : Tri String) ≠ Tri.val "CAD" := by
  refine ⟨by decide, by decide⟩

/-- C7 amended.  For a present currency key the claim holds: null,
non-strings and trim-empty strings become CAD and any other string is
trimmed and upper-cased, never the absent marker.  A missing key however
stays undefined in the normalized record, and the CAD default for that
case is applied by the persistence step of the pipeline instead. -/
theorem c7_currency_default :
    (∀ s : String,
        parseCurrency (some (Json.str s)) =
          Except.ok (Tri.val (if jsTrim s = "" then "CAD" else jsToUpper (jsTrim s)))) ∧
      parseCurrency (some Json.null) = Except.ok (Tri.val "CAD") ∧
      (∀ q : ℚ, parseCurrency (some (Json.num q)) = Except.ok (Tri.val "CAD")) ∧
      (∀ b : Bool, parseCurrency (some (Json.bool b)) = Except.ok (Tri.val "CAD")) ∧
      (∀ xs : List Json, parseCurrency (some (Json.arr xs)) = Except.ok (Tri.val "CAD")) ∧
      parseCurrency none = Except.ok Tri.undef ∧
      currencyOrCad Tri.undef = "CAD" ∧
      receiptParse (Json.obj [("currency", Json.str "usd")]) =
        Except.ok ⟨Tri.undef, Tri.undef, Tri.undef, Tri.val "USD", Tri.undef,
          Tri.undef, Tri.undef⟩ := by
  refine ⟨fun s => rfl, rfl, fun q => rfl, fun b => rfl, fun xs => rfl, rfl, rfl, by decide⟩

/-- C8 counterexample.  The claim says a text-typed part is used only
when its text is non-empty.  On a payload whose first content part is
text-typed with empty text, the source returns the empty string at once,
while the chain as the claim words it would skip it and return the later
non-empty text. -/
theorem c8_empty_text_part_returned :
    extractText c8Payload = Except.ok "" ∧
      claimExtractText c8Payload = Except.ok " hi " ∧
      (Except.ok "" : Except String String) ≠ Except.ok " hi " := by
  refine ⟨by decide, by decide, by decide⟩

/-- C8 amended.  Extraction follows the fallback chain with one change to
step two: a text-typed part is returned whenever its text field is a
string, even when empty; else a JSON-typed part with non-null json is
serialized back to text; else any part exposing a string text field
non-empty after trimming is returned; step one (non-blank top-level
text) and step three (the empty-model-response error) are as claimed. -/
theorem c8_extraction_chain (payload : Json) :
    extractText payload = specExtractText payload := by
  unfold extractText specExtractText extractFallback
  cases h : asStr (jfield payload "output_text") with
  | some s =>
      by_cases ht : jsTrim s = ""
      · simp [ht, scanOutput_eq_spec]
      · simp [ht, scanOutput_eq_spec]
  | none => simp [scanOutput_eq_spec]

/-- C9.  Whenever a pipeline step before persistence fails — the signed
URL step, the model call (a timeout abort included), JSON parsing of the
extracted text, or the schema parse — the POST handler attempts no
insert and returns a non-success status; and with credentials present a
fetch that hits the 60-second abort surfaces as the distinct timeout
failure of the model call. -/
theorem c9_prefailure_no_persist :
    (∀ (jsonParse : String → Option Json) (token authUser : Option String)
        (reqBody : Option Json) (sign : Except String String)
        (apiKey : Option String) (fetch : FetchOutcome) (insertOk : Bool),
      ((∃ e, sign = Except.error e) ∨
          (∃ e, callOpenAiVision apiKey fetch = Except.error e) ∨
          (∀ t, callOpenAiVision apiKey fetch = Except.ok t → jsonParse t = none) ∨
          (∀ t pj, callOpenAiVision apiKey fetch = Except.ok t →
            jsonParse t = some pj → ∃ e, receiptParse pj = Except.error e)) →
        (postPipeline jsonParse token authUser reqBody sign apiKey fetch insertOk).2 =
            none ∧
          (postPipeline jsonParse token authUser reqBody sign apiKey fetch insertOk).1 ≠
            200) ∧
      ∀ k : String,
        callOpenAiVision (some k) FetchOutcome.timeoutAbort =
          Except.error VisionError.aborted := by
  refine ⟨?_, fun k => rfl⟩
  intro jsonParse token authUser reqBody sign apiKey fetch insertOk h
  rcases token with _ | tk
  · simp [postPipeline]
  rcases authUser with _ | uid
  · simp [postPipeline]
  rcases reqBody with _ | bj
  · simp [postPipeline]
  cases hb : bodyParse bj with
  | error e => simp [postPipeline, hb]
  | ok b =>
      cases hs : sign with
      | error e => simp [postPipeline, hb, hs]
      | ok url =>
          cases hv : callOpenAiVision apiKey fetch with
          | error e => simp [postPipeline, hb, hs, hv]
          | ok t =>
              rcases h with ⟨e, he⟩ | ⟨e, he⟩ | hjp | hrp
              · rw [hs] at he
                cases he
              · rw [hv] at he
                cases he
              · have hj := hjp t hv
                simp [postPipeline, hb, hs, hv, hj]
              · cases hj : jsonParse t with
                | none => simp [postPipeline, hb, hs, hv, hj]
                | some pj =>
                    obtain ⟨e, he⟩ := hrp t pj hv hj
                    simp [postPipeline, hb, hs, hv, hj, he]

/-- C9 witness: with a failing signed-URL step and a timed-out fetch the
pipeline persists nothing and reports failure, and the model call
reports the abort distinctly. -/
theorem c9_prefailure_no_persist_witness :
    (postPipeline (fun _ => none) (some "tok") (some "alice") (some postBody0)
          (Except.error "sign failed") (some "key") FetchOutcome.timeoutAbort
          true).2 = none ∧
      (postPipeline (fun _ => none) (some "tok") (some "alice") (some postBody0)
          (Except.error "sign failed") (some "key") FetchOutcome.timeoutAbort
          true).1 ≠ 200 ∧
      callOpenAiVision (some "key") FetchOutcome.timeoutAbort =
        Except.error VisionError.aborted := by
  have h :=
    c9_prefailure_no_persist.1 (fun _ => none) (some "tok") (some "alice")
      (some postBody0) (Except.error "sign failed") (some "key")
      FetchOutcome.timeoutAbort true (Or.inl ⟨"sign failed", rfl⟩)
  exact ⟨h.1, h.2, c9_prefailure_no_persist.2 "key"⟩

/-- C10.  Every data access is user-scoped: the listing returns only
rows of the authenticated user, and a DELETE or PATCH naming an id that
no row of the requesting user carries answers Not-found and leaves the
rows and the stored objects unchanged — so a caller can never read,
modify, or delete a transaction of another user. -/
theorem c10_user_scoped :
    (∀ (db : Store) (uid : String) (r : Txn),
        r ∈ getTransactions db uid → r.user_id = uid) ∧
      (∀ (db : Store) (uid id : String), id ≠ "" →
        (∀ r ∈ db.rows, r.id = id → r.user_id ≠ uid) →
        deleteTransaction db uid (Json.obj [("id", Json.str id)]) = (404, db)) ∧
      (∀ (db : Store) (uid : String) (body : Json) (p : PatchParsed),
        patchParse body = Except.ok p → hasUpdate p = true →
        (∀ r ∈ db.rows, r.id = p.id → r.user_id ≠ uid) →
        patchTransaction db uid body = (404, db)) := by
  refine ⟨?_, ?_, ?_⟩
  · intro db uid r hr
    unfold getTransactions at hr
    have hmem := mem_orderByCreatedDesc hr
    have := List.mem_filter.mp hmem
    simpa using this.2
  · intro db uid id hne hforeign
    have hnil : db.rows.filter (fun r => r.id == id && r.user_id == uid) = [] := by
      rw [List.filter_eq_nil_iff]
      intro r hr
      simp only [Bool.and_eq_true, beq_iff_eq, not_and]
      exact hforeign r hr
    simp [deleteTransaction, jget, hne, hnil]
  · intro db uid body p hp hup hforeign
    have hnil : db.rows.filter (fun r => r.id == p.id && r.user_id == uid) = [] := by
      rw [List.filter_eq_nil_iff]
      intro r hr
      simp only [Bool.and_eq_true, beq_iff_eq, not_and]
      exact hforeign r hr
    simp [patchTransaction, hp, hup, hnil]

/-- C10 witness: in a concrete two-user store, the row listed for alice
is hers, and deleting or patching the row of bob as alice answers 404
and leaves the store untouched. -/
theorem c10_user_scoped_witness :
    txnA.user_id = "alice" ∧
      deleteTransaction db0 "alice" (Json.obj [("id", Json.str "t2")]) = (404, db0) ∧
      patchTransaction db0 "alice" patchBody0 = (404, db0) := by
  refine ⟨?_, ?_, ?_⟩
  · exact c10_user_scoped.1 db0 "alice" txnA (by decide)
  · exact c10_user_scoped.2.1 db0 "alice" "t2" (by decide) (by decide)
  · exact c10_user_scoped.2.2 db0 "alice" patchBody0 patchParsed0 (by decide)
      (by decide) (by decide)

end ReceiptTracker
